import Mathlib

/-!
# Verification of the Wahapedia CSV importer's reconciliation logic

Shallow embedding of the reconciliation engine implemented by
`02_import_from_web.py` (Supabase client variant) and
`03_import_from_web.py` (psycopg2 variant):

* field converters (`convert_boolean`, `convert_int`, `convert_date`),
* the CSV row-cleaning step of `parse_csv_content` (the delimiter
  splitting itself is done by Python's `csv.DictReader`, an external
  library; we embed the in-repo cleaning loop over the reader's output),
* the change-detection gate `check_if_update_needed` of both variants,
* the last-write-wins deduplication idiom (`seen_ids[key] = row`),
* the delete-then-insert child-table import
  (`import_datasheets_abilities` of the Supabase variant), and
* the orchestration loop of `main` of both variants (immediate writes
  in the Supabase variant; a single transaction with commit/rollback in
  the psycopg2 variant).

Python `dict` insertion is modelled by `dictInsert` on association
lists: updating an existing key replaces the value in place, a new key
is appended, so iteration order is first-insertion order — exactly
CPython's documented `dict` semantics, which the deduplication idiom
relies on.

Timestamps are modelled as natural numbers (`datetime` values are
totally ordered; only their order is used by the gate).  The outcome of
Python's `datetime.strptime` / stored-marker read is passed in as an
`Option` (parsing is done by the standard library, outside the repo);
`none` stands for a raised exception.
-/

/-- CPython `dict` assignment `m[k] = v` on an insertion-ordered
association list: if the key is present its value is replaced in place
(a dict holds each key once, so the list has at most one entry per
key), otherwise the pair is appended at the end — iteration order is
first-insertion order, as CPython documents. -/
def dictInsert {κ α : Type} [DecidableEq κ] : List (κ × α) → κ → α → List (κ × α)
  | [], k, v => [(k, v)]
  | p :: m, k, v => if p.1 = k then (k, v) :: m else p :: dictInsert m k v

/-- Lookup in an association list (first entry with the key). -/
def dictFind? {κ α : Type} [DecidableEq κ] (m : List (κ × α)) (k : κ) : Option α :=
  (m.find? (fun p => p.1 = k)).map Prod.snd

/-- Python `str.lower()`, modelled by `Char.toLower` on each
character. -/
def pyLower (s : String) : String :=
  ⟨s.data.map Char.toLower⟩

/-- Python `str.split(sep)` for a one-character separator, on the
character list: splits at every occurrence of `sep`, keeping empty
segments, and always returns at least one segment. -/
def splitChar (sep : Char) : List Char → List (List Char)
  | [] => [[]]
  | c :: cs =>
    match splitChar sep cs with
    | [] => [[]]
    | s :: ss => if c = sep then [] :: s :: ss else (c :: s) :: ss

/-- Python `str.split(sep)` for a one-character separator, on
strings. -/
def pySplit (sep : Char) (s : String) : List String :=
  (splitChar sep s.data).map String.mk

/-- Model of `convert_boolean` (identical in both scripts, lines 133–145):
`None`/empty → `None`, otherwise `value.lower() == 'true'`. -/
def convert_boolean (value : Option String) : Option Bool :=
  match value with
  | none => none
  | some v => if v = "" then none else some (pyLower v == "true")

/-- Value of a non-empty all-digit character list as a natural number;
`none` otherwise. -/
def digitsToNat? (l : List Char) : Option Nat :=
  if l = [] then none
  else if l.all Char.isDigit then
    some (l.foldl (fun n c => n * 10 + (c.toNat - 48)) 0)
  else none

/-- Python `int(str)` on a decimal numeral with an optional sign;
`none` models a raised `ValueError`. -/
def pyInt? (s : String) : Option Int :=
  match s.data with
  | '-' :: rest => (digitsToNat? rest).map (fun n => -(n : Int))
  | '+' :: rest => (digitsToNat? rest).map (fun n => (n : Int))
  | l => (digitsToNat? l).map (fun n => (n : Int))

/-- Model of `convert_int` (identical in both scripts, lines 148–163):
`None`/empty → `None`, non-numeric → `None` (the `ValueError` of
Python's `int` is swallowed), otherwise the parsed integer. -/
def convert_int (value : Option String) : Option Int :=
  match value with
  | none => none
  | some v => if v = "" then none else pyInt? v

/-- Python `str.zfill(width)`: left-pad with `'0'` up to `width`,
inserting the zeros after a leading sign character if there is one. -/
def zfill (width : Nat) (s : String) : String :=
  if width ≤ s.length then s
  else
    match s.data with
    | c :: rest =>
      if c = '+' ∨ c = '-' then
        ⟨c :: (List.replicate (width - s.length) '0' ++ rest)⟩
      else
        ⟨List.replicate (width - s.length) '0' ++ s.data⟩
    | [] => ⟨List.replicate width '0'⟩

/-- Model of `convert_date` (`02_import_from_web.py`, lines 166–190):
`None`/empty → `None`; drop everything from the first space on
(`value.split(' ')[0]`); split the rest on `'.'`; with exactly three
segments `day.month.year` produce `year-month-day` with `zfill(2)`
applied to month and day, otherwise `None`. -/
def convert_date (value : Option String) : Option String :=
  match value with
  | none => none
  | some v =>
    if v = "" then none
    else
      let date_part := (pySplit ' ' v).headD ""
      let parts := pySplit '.' date_part
      match parts with
      | [day, month, year] => some (year ++ "-" ++ zfill 2 month ++ "-" ++ zfill 2 day)
      | _ => none

/-- Model of the `key.replace` call of `parse_csv_content` (the BOM character is written with an escape): removes every
occurrence of the UTF-8 BOM character. -/
def removeBOM (s : String) : String :=
  ⟨s.data.filter (fun c => c ≠ '\uFEFF')⟩

/-- Python `str.strip()` with no argument: drop leading and trailing
whitespace characters. -/
def pyStrip (s : String) : String :=
  ⟨((s.data.dropWhile Char.isWhitespace).reverse.dropWhile Char.isWhitespace).reverse⟩

/-- The header cleaning applied to each column name by
`parse_csv_content`: remove the BOM character, then strip. -/
def cleanKey (k : String) : String :=
  pyStrip (removeBOM k)

/-- The cleaning loop body of `parse_csv_content` (identical in both
scripts, lines 104–130) for one row: every key is BOM-stripped and
whitespace-trimmed, entries whose cleaned key is empty are dropped, and
the cleaned row is built up as a Python `dict`. -/
def clean_row (row : List (String × String)) : List (String × String) :=
  row.foldl
    (fun acc kv =>
      if cleanKey kv.1 = "" then acc else dictInsert acc (cleanKey kv.1) kv.2)
    []

/-- Model of `parse_csv_content` over the output of `csv.DictReader` (the
delimiter splitting itself happens in the Python standard library; the
reader's rows, as association lists in file order, are the input here):
each row is cleaned, rows stay in input order. -/
def parse_csv_content (rows : List (List (String × String))) :
    List (List (String × String)) :=
  rows.map clean_row

/-- Model of `check_if_update_needed` of `02_import_from_web.py` (lines 221–261).
`storedRead = none` models an exception while reading or parsing the
stored marker, `some none` an empty `last_update` table, `some (some e)`
a stored maximum marker `e`.  `parseNew = none` models
`datetime.strptime` raising on the incoming marker string, `cmpOk =
false` models the comparison itself raising (naive vs. timezone-aware
`datetime`).  The whole body is wrapped in `try/except` returning
`True`, so every failure yields `true`. -/
def check_if_update_needed_02 (storedRead : Option (Option Nat))
    (parseNew : Option Nat) (cmpOk : Bool) : Bool :=
  match storedRead with
  | none => true
  | some none => true
  | some (some existing) =>
    match parseNew with
    | none => true
    | some newTs => if cmpOk then !(newTs ≤ existing) else true

/-- Model of `check_if_update_needed` of `03_import_from_web.py` (lines
186–217).  Same inputs as the Supabase variant, but there is no
`try/except`: a store-read failure or a `strptime` failure propagates
as an exception (`Except.error`). -/
def check_if_update_needed_03 (storedRead : Option (Option Nat))
    (parseNew : Option Nat) : Except Unit Bool :=
  match storedRead with
  | none => .error ()
  | some none => .ok true
  | some (some existing) =>
    match parseNew with
    | none => .error ()
    | some newTs => .ok (!(newTs ≤ existing))

/-- The deduplication idiom used by `import_stratagems`,
`import_abilities`, `import_datasheets`, … (`02_import_from_web.py`,
e.g. lines 300–304 and 693–698):

    seen = {}
    for row in data: seen[key(row)] = row
    deduplicated = list(seen.values())

`key` is the declared key extractor (a single field or a tuple of
fields). -/
def dedupLast {κ α : Type} [DecidableEq κ] (key : α → κ) (data : List α) : List α :=
  (data.foldl (fun m row => dictInsert m (key row) row) []).map Prod.snd

/-- The keys of the `seen` dict after the deduplication loop, i.e. the
output keys of `dedupLast` in order. -/
def dedupKeys {κ α : Type} [DecidableEq κ] (key : α → κ) (data : List α) : List κ :=
  (data.foldl (fun m row => dictInsert m (key row) row) []).map Prod.fst

/-- First-seen order of a key list: each key listed at its first
occurrence, later duplicates removed. -/
def firstSeen {κ : Type} [DecidableEq κ] : List κ → List κ
  | [] => []
  | k :: ks => k :: firstSeen (ks.filter (fun x => x ≠ k))
termination_by l => l.length
decreasing_by
  exact Nat.lt_succ_of_le (List.length_filter_le _ _)

/-- A raw row of `Datasheets_abilities.csv` as delivered by
`parse_csv_content`: the fields the import logic inspects are explicit,
the remaining columns (`model`, `name`, `description`, `type`,
`parameter`) are carried opaquely in `rest`. -/
structure RawChildRow where
  datasheet_id : String
  ability_id : String
  line : String
  rest : List (String × String)
deriving DecidableEq, Repr

/-- A `datasheets_abilities` row as stored (after the in-place
normalization done by the import loop). -/
structure ChildRow where
  datasheet_id : String
  ability_id : Option String
  line : Option Int
  rest : List (String × String)
deriving DecidableEq, Repr

/-- The in-place normalization done to each row by
`import_datasheets_abilities` (`02_import_from_web.py`, lines 409–413):
`row['line'] = convert_int(...)` and empty `ability_id` becomes
`None`. -/
def normChildRow (r : RawChildRow) : ChildRow :=
  { datasheet_id := r.datasheet_id
  , ability_id := if r.ability_id = "" then none else some r.ability_id
  , line := convert_int (some r.line)
  , rest := r.rest }

/-- The keep condition of the validation loop of
`import_datasheets_abilities` (`02_import_from_web.py`, lines 415–421):
the owner key must be a committed datasheet id, and a non-null
`ability_id` must be a committed ability id. -/
def keepChild (valid_ds valid_ab : List String) (row : ChildRow) : Bool :=
  decide (row.datasheet_id ∈ valid_ds) &&
    (match row.ability_id with
     | none => true
     | some a => decide (a ∈ valid_ab))

/-- The validation loop of `import_datasheets_abilities`
(`02_import_from_web.py`, lines 406–423): normalize each row, append it
to `valid_data` if its foreign keys resolve, otherwise bump
`skipped_count`.  Returns `(valid_data, skipped_count)`. -/
def validateAbilities (valid_ds valid_ab : List String) :
    List RawChildRow → List ChildRow × Nat
  | [] => ([], 0)
  | r :: rs =>
    let row := normChildRow r
    let rec_rest := validateAbilities valid_ds valid_ab rs
    if row.datasheet_id ∈ valid_ds then
      match row.ability_id with
      | none => (row :: rec_rest.1, rec_rest.2)
      | some a =>
        if a ∈ valid_ab then (row :: rec_rest.1, rec_rest.2)
        else (rec_rest.1, rec_rest.2 + 1)
    else (rec_rest.1, rec_rest.2 + 1)

/-- Model of `import_datasheets_abilities` of `02_import_from_web.py`
(lines 387–427) as a pure function on the stored
`datasheets_abilities` rows.  `valid_ds` / `valid_ab` are the key
snapshots read from the `datasheets` / `abilities` tables (those tables
are not touched by this function, so they enter as parameters).  Steps,
in source order: collect the distinct owner keys of the *incoming* rows
(line 392), delete every stored row with such an owner key (lines
395–397), validate and normalize (lines 406–423), insert the surviving
rows (lines 425–426).  Returns the new stored rows and the skipped
count. -/
def import_datasheets_abilities_02 (stored : List ChildRow)
    (valid_ds valid_ab : List String) (data : List RawChildRow) :
    List ChildRow × Nat :=
  let datasheet_ids := data.map RawChildRow.datasheet_id
  let afterDelete := stored.filter (fun r => r.datasheet_id ∉ datasheet_ids)
  let v := validateAbilities valid_ds valid_ab data
  (afterDelete ++ v.1, v.2)

/-- Abstract relational store for the orchestration model: the rows of
the `last_update` table (markers, as naturals) and, per child/root
table, its rows (abstracted to naturals — the claims about the
orchestrator only concern *when* writes happen, not row contents). -/
structure DB where
  markerRows : List Nat
  tables : List (String × List Nat)
deriving DecidableEq, Repr

/-- The stored maximum freshness marker, `SELECT MAX(last_update)`
(`none` when the table is empty). -/
def storedMaxMarker (db : DB) : Option Nat :=
  db.markerRows.foldl (fun acc m => some (max (acc.getD 0) m)) none

/-- Effect of `import_last_update` for one marker row: `INSERT ... ON
CONFLICT (last_update) DO NOTHING` (psycopg2 variant, lines 258–267) /
`upsert(..., on_conflict='last_update')` (Supabase variant, lines
285–289): the marker is added unless already present. -/
def insertMarker (db : DB) (m : Nat) : DB :=
  { db with markerRows := if m ∈ db.markerRows then db.markerRows else db.markerRows ++ [m] }

/-- Effect of any other entity's import function, abstracted to
replacing that table's rows with the fetched batch. -/
def setTable (db : DB) (t : String) (rows : List Nat) : DB :=
  { db with tables := dictInsert db.tables t rows }

/-- Dispatch of `IMPORT_FUNCTIONS[csv_file]` in the orchestration
model: `Last_update.csv` inserts its marker rows, every other file
writes its table. -/
def applyImport (db : DB) (file : String) (rows : List Nat) : DB :=
  if file = "Last_update.csv" then rows.foldl insertMarker db
  else setTable db file rows

/-- The `CSV_FILES` list (identical in both scripts, lines 50–70 /
47–67): the fixed processing order of the import loop.  Note that
`Last_update.csv` comes first. -/
def CSV_FILES : List String :=
  [ "Last_update.csv"
  , "Factions.csv"
  , "Source.csv"
  , "Stratagems.csv"
  , "Abilities.csv"
  , "Enhancements.csv"
  , "Detachment_abilities.csv"
  , "Datasheets.csv"
  , "Datasheets_abilities.csv"
  , "Datasheets_keywords.csv"
  , "Datasheets_models.csv"
  , "Datasheets_options.csv"
  , "Datasheets_wargear.csv"
  , "Datasheets_unit_composition.csv"
  , "Datasheets_models_cost.csv"
  , "Datasheets_stratagems.csv"
  , "Datasheets_enhancements.csv"
  , "Datasheets_detachment_abilities.csv"
  , "Datasheets_leader.csv"
  ]

/-- The import loop of `main` (step 3 in both scripts): files are
processed in `CSV_FILES` order; a file whose downloaded data is empty
is skipped (`if csv_file in csv_data and csv_data[csv_file]`); an
entity whose store write raises (`fails file = true`) aborts the loop —
neither script has a per-entity handler, so the exception propagates
out of the loop.  Returns the store state when the loop stopped and
whether it completed. -/
def runFiles (fails : String → Bool) (csvData : String → List Nat) :
    DB → List String → DB × Bool
  | db, [] => (db, true)
  | db, f :: fs =>
    if (csvData f).isEmpty then runFiles fails csvData db fs
    else if fails f then (db, false)
    else runFiles fails csvData (applyImport db f (csvData f)) fs

/-- The whole import phase of `02_import_from_web.py`'s `main` (lines
781–787): each Supabase call takes effect immediately (auto-commit), so
an abort keeps everything already written — including the marker rows
written by `import_last_update`, which runs first. -/
def run_02 (fails : String → Bool) (csvData : String → List Nat) (db : DB) :
    DB × Bool :=
  runFiles fails csvData db CSV_FILES

/-- The whole import phase of `03_import_from_web.py`'s `main` (lines
684–693 and 717–731): all writes go through one psycopg2 transaction;
`conn.commit()` runs only after the loop finishes, and any
`psycopg2.Error` triggers `conn.rollback()`, so an aborted run leaves
the store exactly as before. -/
def run_03 (fails : String → Bool) (csvData : String → List Nat) (db : DB) :
    DB × Bool :=
  let r := runFiles fails csvData db CSV_FILES
  if r.2 then (r.1, true) else (db, false)

/-- The state of the `seen` dict part-way through the deduplication
loop: fold the remaining rows over `dictInsert` starting from `m`. -/
def seenFold {κ α : Type} [DecidableEq κ] (key : α → κ) (m : List (κ × α))
    (data : List α) : List (κ × α) :=
  data.foldl (fun m row => dictInsert m (key row) row) m

/-- The last record with key `k` in `data`, in input order. -/
def lastWith {κ α : Type} [DecidableEq κ] (key : α → κ) (k : κ) (data : List α) :
    Option α :=
  (data.filter (fun r => key r = k)).getLast?

/-! ## Lemmas about the Python dict model -/

theorem mem_dictInsert {κ α : Type} [DecidableEq κ] {m : List (κ × α)} {k : κ} {v : α}
    {p : κ × α} (h : p ∈ dictInsert m k v) : p = (k, v) ∨ p ∈ m := by
  induction m with
  | nil => simpa [dictInsert] using h
  | cons q m ih =>
    by_cases hq : q.1 = k
    · rw [dictInsert, if_pos hq] at h
      rcases List.mem_cons.1 h with h1 | h1
      · exact Or.inl h1
      · exact Or.inr (List.mem_cons_of_mem _ h1)
    · rw [dictInsert, if_neg hq] at h
      rcases List.mem_cons.1 h with h1 | h1
      · exact Or.inr (h1 ▸ List.mem_cons_self _ _)
      · rcases ih h1 with h2 | h2
        · exact Or.inl h2
        · exact Or.inr (List.mem_cons_of_mem _ h2)

theorem keys_dictInsert {κ α : Type} [DecidableEq κ] (m : List (κ × α)) (k : κ) (v : α) :
    (dictInsert m k v).map Prod.fst =
      if k ∈ m.map Prod.fst then m.map Prod.fst else m.map Prod.fst ++ [k] := by
  induction m with
  | nil => simp [dictInsert]
  | cons q m ih =>
    by_cases hq : q.1 = k
    · rw [dictInsert, if_pos hq]
      simp [hq]
    · rw [dictInsert, if_neg hq]
      by_cases hk : k ∈ m.map Prod.fst
      · simp only [List.map_cons, ih, if_pos hk]
        rw [if_pos (List.mem_cons_of_mem _ hk)]
      · simp only [List.map_cons, ih, if_neg hk, List.cons_append]
        rw [if_neg (fun hc => by
          rcases List.mem_cons.1 hc with h1 | h1
          · exact hq h1.symm
          · exact hk h1)]

theorem nodup_keys_dictInsert {κ α : Type} [DecidableEq κ] {m : List (κ × α)} (k : κ) (v : α)
    (h : (m.map Prod.fst).Nodup) : ((dictInsert m k v).map Prod.fst).Nodup := by
  rw [keys_dictInsert]
  by_cases hk : k ∈ m.map Prod.fst
  · simpa [hk] using h
  · rw [if_neg hk]
    rw [List.nodup_append]
    exact ⟨h, List.nodup_singleton k, by simpa [List.disjoint_singleton] using hk⟩

theorem dictFind?_dictInsert_self {κ α : Type} [DecidableEq κ] (m : List (κ × α)) (k : κ) (v : α) :
    dictFind? (dictInsert m k v) k = some v := by
  induction m with
  | nil => simp [dictInsert, dictFind?]
  | cons q m ih =>
    by_cases hq : q.1 = k
    · rw [dictInsert, if_pos hq]
      simp [dictFind?]
    · rw [dictInsert, if_neg hq]
      rw [dictFind?, List.find?_cons_of_neg _ (by simpa using hq)]
      exact ih

theorem dictFind?_dictInsert_ne {κ α : Type} [DecidableEq κ] (m : List (κ × α)) {k k' : κ} (v : α)
    (h : k' ≠ k) : dictFind? (dictInsert m k v) k' = dictFind? m k' := by
  induction m with
  | nil =>
    rw [dictInsert]
    rw [dictFind?, List.find?_cons_of_neg _ (by simpa using fun hc => h hc.symm)]
    simp [dictFind?]
  | cons q m ih =>
    by_cases hq : q.1 = k
    · rw [dictInsert, if_pos hq]
      by_cases hq' : q.1 = k'
      · exact absurd (hq'.symm.trans hq) h
      · rw [dictFind?, List.find?_cons_of_neg _ (by simpa using fun hc => h hc.symm)]
        rw [dictFind?, List.find?_cons_of_neg _ (by simpa using hq')]
    · rw [dictInsert, if_neg hq]
      by_cases hq' : q.1 = k'
      · rw [dictFind?, List.find?_cons_of_pos _ (by simpa using hq')]
        rw [dictFind?, List.find?_cons_of_pos _ (by simpa using hq')]
      · rw [dictFind?, List.find?_cons_of_neg _ (by simpa using hq')]
        rw [dictFind?, List.find?_cons_of_neg _ (by simpa using hq')]
        exact ih

theorem dictFind?_of_mem {κ α : Type} [DecidableEq κ] {m : List (κ × α)} {p : κ × α}
    (hnd : (m.map Prod.fst).Nodup) (hp : p ∈ m) : dictFind? m p.1 = some p.2 := by
  induction m with
  | nil => cases hp
  | cons q m ih =>
    rcases List.mem_cons.1 hp with h1 | h1
    · subst h1
      simp [dictFind?]
    · have hne : q.1 ≠ p.1 := by
        intro hc
        have : p.1 ∈ m.map Prod.fst := List.mem_map.2 ⟨p, h1, rfl⟩
        rw [List.map_cons, List.nodup_cons] at hnd
        exact hnd.1 (hc ▸ this)
      rw [dictFind?, List.find?_cons_of_neg _ (by simpa using hne)]
      exact ih (by rw [List.map_cons, List.nodup_cons] at hnd; exact hnd.2) h1

theorem seenFold_nil {κ α : Type} [DecidableEq κ] (key : α → κ) (m : List (κ × α)) :
    seenFold key m [] = m := rfl

theorem seenFold_cons {κ α : Type} [DecidableEq κ] (key : α → κ) (m : List (κ × α))
    (r : α) (data : List α) :
    seenFold key m (r :: data) = seenFold key (dictInsert m (key r) r) data := rfl

theorem dictFind?_seenFold {κ α : Type} [DecidableEq κ] (key : α → κ) (k : κ) :
    ∀ (data : List α) (m : List (κ × α)),
      dictFind? (seenFold key m data) k = (lastWith key k data).or (dictFind? m k)
  | [], m => by simp [seenFold, lastWith]
  | r :: data, m => by
    rw [seenFold_cons, dictFind?_seenFold key k data]
    by_cases hk : key r = k
    · rw [← hk, dictFind?_dictInsert_self]
      unfold lastWith
      rw [List.filter_cons_of_pos (by simp [hk])]
      cases h2 : (data.filter (fun x => key x = key r)).getLast? with
      | none =>
        have : data.filter (fun x => key x = key r) = [] :=
          List.getLast?_eq_none_iff.1 h2
        simp [this]
      | some v =>
        rcases List.getLast?_eq_some_iff.1 h2 with ⟨ys, hys⟩
        simp only [hys, h2, Option.or_some]
        rw [show r :: (ys ++ [v]) = (r :: ys) ++ [v] from rfl, List.getLast?_concat]
        simp
    · rw [dictFind?_dictInsert_ne _ _ (fun hc => hk hc.symm)]
      unfold lastWith
      rw [List.filter_cons_of_neg (by simp [hk])]

theorem seenFold_consistent {κ α : Type} [DecidableEq κ] (key : α → κ) :
    ∀ (data : List α) (m : List (κ × α)), (∀ p ∈ m, p.1 = key p.2) →
      ∀ p ∈ seenFold key m data, p.1 = key p.2
  | [], m, hm => hm
  | r :: data, m, hm => by
    rw [seenFold_cons]
    refine seenFold_consistent key data _ (fun p hp => ?_)
    rcases mem_dictInsert hp with h1 | h1
    · rw [h1]
    · exact hm p h1

theorem keys_seenFold_nodup {κ α : Type} [DecidableEq κ] (key : α → κ) :
    ∀ (data : List α) (m : List (κ × α)), (m.map Prod.fst).Nodup →
      ((seenFold key m data).map Prod.fst).Nodup
  | [], m, hm => hm
  | r :: data, m, hm => by
    rw [seenFold_cons]
    exact keys_seenFold_nodup key data _ (nodup_keys_dictInsert _ _ hm)

theorem firstSeen_nil {κ : Type} [DecidableEq κ] : firstSeen ([] : List κ) = [] := by
  simp [firstSeen]

theorem firstSeen_cons {κ : Type} [DecidableEq κ] (k : κ) (ks : List κ) :
    firstSeen (k :: ks) = k :: firstSeen (ks.filter (fun x => x ≠ k)) := by
  simp [firstSeen]

theorem mem_firstSeen {κ : Type} [DecidableEq κ] :
    ∀ (l : List κ) (k : κ), k ∈ firstSeen l ↔ k ∈ l
  | [], k => by simp [firstSeen_nil]
  | a :: l, k => by
    rw [firstSeen_cons, List.mem_cons, List.mem_cons,
      mem_firstSeen (l.filter (fun x => x ≠ a)) k]
    by_cases hk : k = a
    · simp [hk]
    · simp [hk, List.mem_filter]
termination_by l => l.length
decreasing_by
  exact Nat.lt_succ_of_le (List.length_filter_le _ _)

theorem keys_seenFold {κ α : Type} [DecidableEq κ] (key : α → κ) :
    ∀ (data : List α) (m : List (κ × α)),
      (seenFold key m data).map Prod.fst =
        m.map Prod.fst ++ firstSeen ((data.map key).filter (fun x => x ∉ m.map Prod.fst))
  | [], m => by simp [seenFold_nil, firstSeen_nil]
  | r :: data, m => by
    rw [seenFold_cons, keys_seenFold key data, keys_dictInsert]
    by_cases hk : key r ∈ m.map Prod.fst
    · rw [if_pos hk, List.map_cons, List.filter_cons_of_neg (by simpa using hk)]
    · rw [if_neg hk, List.map_cons, List.filter_cons_of_pos (by simpa using hk),
        firstSeen_cons, List.append_assoc, List.singleton_append, List.filter_filter]
      have hpred : ∀ x ∈ data.map key,
          (decide (x ∉ m.map Prod.fst ++ [key r]))
            = ((decide (x ≠ key r)) && decide (x ∉ m.map Prod.fst)) := by
        intro x _
        by_cases h1 : x ∈ m.map Prod.fst <;> by_cases h2 : x = key r <;>
          simp [h1, h2]
      rw [List.filter_congr hpred]

/-! ## C4: deduplication -/

/-- C4: for every record sequence and key extractor, the deduplication
idiom returns at most one record per distinct key (output keys are
pairwise distinct, and every input key survives), each surviving record
equals the last record with that key in input order, and the output
order is the insertion order of first-seen keys. -/
theorem C4_dedup_last_write_wins {κ α : Type} [DecidableEq κ] (key : α → κ)
    (data : List α) :
    ((dedupLast key data).map key).Nodup ∧
    (∀ r ∈ dedupLast key data,
        (data.filter (fun x => key x = key r)).getLast? = some r) ∧
    ((dedupLast key data).map key = firstSeen (data.map key)) ∧
    (∀ r ∈ data, key r ∈ (dedupLast key data).map key) := by
  have hconsist : ∀ p ∈ seenFold key [] data, p.1 = key p.2 :=
    seenFold_consistent key data [] (by simp)
  have hnodup : ((seenFold key [] data).map Prod.fst).Nodup :=
    keys_seenFold_nodup key data [] (by simp)
  have hmapkey : (dedupLast key data).map key = (seenFold key [] data).map Prod.fst := by
    show ((seenFold key [] data).map Prod.snd).map key = _
    rw [List.map_map]
    exact List.map_congr_left (fun p hp => (hconsist p hp).symm)
  have hkeys : (dedupLast key data).map key = firstSeen (data.map key) := by
    rw [hmapkey, keys_seenFold key data []]
    simp
  refine ⟨?_, ?_, hkeys, ?_⟩
  · rw [hmapkey]
    exact hnodup
  · intro r hr
    rcases List.mem_map.1 hr with ⟨p, hp, rfl⟩
    have h1 : p.1 = key p.2 := hconsist p hp
    have h2 : dictFind? (seenFold key [] data) p.1 = some p.2 :=
      dictFind?_of_mem hnodup hp
    rw [dictFind?_seenFold key p.1 data []] at h2
    rw [show dictFind? ([] : List (κ × α)) p.1 = none from rfl] at h2
    have h3 : (lastWith key p.1 data).or none = lastWith key p.1 data := by
      cases lastWith key p.1 data <;> simp
    rw [h3] at h2
    unfold lastWith at h2
    rw [← h1]
    exact h2
  · intro r hr
    rw [hkeys, mem_firstSeen]
    exact List.mem_map.2 ⟨r, hr, rfl⟩

/-- Witness for C4: two rows share key `K1` with differing values; the
surviving `K1` record is the later row `("K1", 2)`, which is indeed the
last `K1` record in input order. -/
theorem C4_dedup_last_write_wins_witness :
    ("K1", 2) ∈ dedupLast Prod.fst [("K1", 1), ("K2", 5), ("K1", 2)] ∧
    ([("K1", 1), ("K2", 5), ("K1", 2)].filter
        (fun x => x.1 = ("K1", 2).1)).getLast? = some ("K1", 2) := by
  refine ⟨by decide, ?_⟩
  exact (C4_dedup_last_write_wins Prod.fst
    [("K1", 1), ("K2", 5), ("K1", 2)]).2.1 ("K1", 2) (by decide)

/-! ## C8 and C9: field conversion -/

/-- C8: boolean conversion returns null when the value is absent or the
empty string, true when the value lowercases to the literal "true"
(i.e. "true" in any letter case), and false for every other non-empty
string — including "false", "no", "1", "TRUE " with trailing whitespace
and arbitrary garbage; it is total (never raises). -/
theorem C8_convert_boolean :
    convert_boolean none = none ∧
    convert_boolean (some "") = none ∧
    (∀ s : String, s.data.map Char.toLower = "true".data →
        convert_boolean (some s) = some true) ∧
    (∀ s : String, s ≠ "" → s.data.map Char.toLower ≠ "true".data →
        convert_boolean (some s) = some false) ∧
    (∀ s : String, s ≠ "" → (convert_boolean (some s)).isSome = true) ∧
    convert_boolean (some "true") = some true ∧
    convert_boolean (some "TRUE") = some true ∧
    convert_boolean (some "True") = some true ∧
    convert_boolean (some "false") = some false ∧
    convert_boolean (some "no") = some false ∧
    convert_boolean (some "1") = some false ∧
    convert_boolean (some "TRUE ") = some false := by
  refine ⟨rfl, rfl, ?_, ?_, ?_, by decide, by decide, by decide, by decide,
    by decide, by decide, by decide⟩
  · intro s h
    have hne : s ≠ "" := by
      intro hc
      subst hc
      simp at h
    have hlow : pyLower s = "true" := congrArg String.mk h
    simp [convert_boolean, if_neg hne, hlow]
  · intro s hne h
    have hlow : pyLower s ≠ "true" := by
      intro hc
      exact h (by simpa [pyLower] using congrArg String.data hc)
    simp [convert_boolean, if_neg hne, hlow]
  · intro s hne
    simp [convert_boolean, if_neg hne]

/-- Witness for C8: a mixed-case "tRuE" converts to true, a non-"true"
non-empty string converts to false. -/
theorem C8_convert_boolean_witness :
    convert_boolean (some "tRuE") = some true ∧
    convert_boolean (some "yes") = some false := by
  exact ⟨C8_convert_boolean.2.2.1 "tRuE" (by decide),
    C8_convert_boolean.2.2.2.1 "yes" (by decide) (by decide)⟩

/-- C9: date conversion takes a day.month.year value, discards an
optional trailing time-of-day suffix (everything from the first space),
and returns year-month-day with month and day zero-padded to two
digits; input whose date part does not split into exactly three
dot-separated segments yields null without raising, as does null/empty
input. -/
theorem C9_convert_date :
    convert_date none = none ∧
    convert_date (some "") = none ∧
    convert_date (some "05.03.2024 0:00:00") = some "2024-03-05" ∧
    convert_date (some "2024") = none ∧
    (∀ v d m y : String, v ≠ "" →
        pySplit '.' ((pySplit ' ' v).headD "") = [d, m, y] →
        convert_date (some v) = some (y ++ "-" ++ zfill 2 m ++ "-" ++ zfill 2 d)) ∧
    (∀ v : String, v ≠ "" →
        (pySplit '.' ((pySplit ' ' v).headD "")).length ≠ 3 →
        convert_date (some v) = none) := by
  refine ⟨rfl, rfl, by decide, by decide, ?_, ?_⟩
  · intro v d m y hv hsp
    rw [show convert_date (some v)
        = (if v = "" then none else
            match pySplit '.' ((pySplit ' ' v).headD "") with
            | [day, month, year] =>
                some (year ++ "-" ++ zfill 2 month ++ "-" ++ zfill 2 day)
            | _ => none) from rfl]
    rw [if_neg hv, hsp]
  · intro v hv hlen
    rw [show convert_date (some v)
        = (if v = "" then none else
            match pySplit '.' ((pySplit ' ' v).headD "") with
            | [day, month, year] =>
                some (year ++ "-" ++ zfill 2 month ++ "-" ++ zfill 2 day)
            | _ => none) from rfl]
    rw [if_neg hv]
    rcases hp : pySplit '.' ((pySplit ' ' v).headD "") with _ | ⟨a, _ | ⟨b, _ | ⟨c, _ | ⟨e, tl⟩⟩⟩⟩
    · rfl
    · rfl
    · rfl
    · rw [hp] at hlen
      simp at hlen
    · rfl

/-- Witness for C9: a date with a one-digit month gets zero-padded and
the time suffix dropped; a two-segment date part yields null. -/
theorem C9_convert_date_witness :
    convert_date (some "17.9.2024 0:00:00")
      = some ("2024" ++ "-" ++ zfill 2 "9" ++ "-" ++ zfill 2 "17") ∧
    convert_date (some "31.12") = none := by
  exact ⟨C9_convert_date.2.2.2.2.1 "17.9.2024 0:00:00" "17" "9" "2024"
      (by decide) (by decide),
    C9_convert_date.2.2.2.2.2 "31.12" (by decide) (by decide)⟩

/-! ## C1 and C7: the change-detection gate -/

/-- C1: for every incoming marker and store state (when reading,
parsing and comparing succeed), the gate returns true when no marker is
stored, false when the parsed marker is less than or equal to the
stored maximum (in particular on an exact tie), and true when it is
strictly greater — in both script variants. -/
theorem C1_gate_monotonic (e n : Nat) (p : Option Nat) :
    (check_if_update_needed_02 (some none) p true = true ∧
     check_if_update_needed_03 (some none) p = .ok true) ∧
    (n ≤ e →
      check_if_update_needed_02 (some (some e)) (some n) true = false ∧
      check_if_update_needed_03 (some (some e)) (some n) = .ok false) ∧
    (e < n →
      check_if_update_needed_02 (some (some e)) (some n) true = true ∧
      check_if_update_needed_03 (some (some e)) (some n) = .ok true) ∧
    (check_if_update_needed_02 (some (some e)) (some e) true = false ∧
     check_if_update_needed_03 (some (some e)) (some e) = .ok false) := by
  refine ⟨⟨rfl, rfl⟩, ?_, ?_, ?_⟩
  · intro h
    constructor
    · simp [check_if_update_needed_02, h]
    · simp [check_if_update_needed_03, h]
  · intro h
    have h2 : ¬(n ≤ e) := Nat.not_le.mpr h
    constructor
    · simp [check_if_update_needed_02, h2]
    · simp [check_if_update_needed_03, h2]
  · constructor
    · simp [check_if_update_needed_02]
    · simp [check_if_update_needed_03]

/-- Witness for C1: with stored marker 5, an equal incoming marker 5
skips and an incoming marker 6 (one greater) imports. -/
theorem C1_gate_monotonic_witness :
    check_if_update_needed_02 (some (some 5)) (some 5) true = false ∧
    check_if_update_needed_02 (some (some 5)) (some 6) true = true ∧
    check_if_update_needed_03 (some (some 5)) (some 6) = .ok true := by
  exact ⟨((C1_gate_monotonic 5 5 none).2.1 (by decide)).1,
    ((C1_gate_monotonic 5 6 none).2.2.1 (by decide)).1,
    ((C1_gate_monotonic 5 6 none).2.2.1 (by decide)).2⟩

/-- C7 counterexample: in the psycopg2 variant, when the incoming
marker fails to parse (with a marker stored), `check_if_update_needed`
does not return true — the exception propagates and aborts the run;
likewise for a store-read failure. -/
theorem C7_fail_open_counterexample :
    check_if_update_needed_03 (some (some 5)) none = .error () ∧
    check_if_update_needed_03 (some (some 5)) none ≠ .ok true ∧
    check_if_update_needed_03 none (some 6) = .error () ∧
    check_if_update_needed_03 none (some 6) ≠ .ok true := by
  refine ⟨rfl, ?_, rfl, ?_⟩
  · intro h
    cases h
  · intro h
    cases h

/-- C7 amended: the Supabase variant's gate fails open — any store-read
failure, parse failure or comparison failure yields true — while the
psycopg2 variant's gate propagates a store-read or parse failure as an
exception (the run aborts; only the bootstrap no-marker case is
unaffected, since the marker is then never parsed). -/
theorem C7_fail_open_amended (e : Nat) (p : Option Nat) (c : Bool) :
    check_if_update_needed_02 none p c = true ∧
    check_if_update_needed_02 (some (some e)) none c = true ∧
    check_if_update_needed_02 (some (some e)) (some e) false = true ∧
    check_if_update_needed_03 none p = .error () ∧
    check_if_update_needed_03 (some (some e)) none = .error () ∧
    check_if_update_needed_03 (some none) p = .ok true := by
  exact ⟨rfl, rfl, rfl, rfl, rfl, rfl⟩

/-! ## C3 and C2: referential validation and replace-by-owner-key -/

theorem validateAbilities_fst (valid_ds valid_ab : List String) :
    ∀ data : List RawChildRow,
      (validateAbilities valid_ds valid_ab data).1
        = (data.map normChildRow).filter (keepChild valid_ds valid_ab)
  | [] => rfl
  | r :: data => by
    have ih := validateAbilities_fst valid_ds valid_ab data
    by_cases h1 : (normChildRow r).datasheet_id ∈ valid_ds
    · cases habl : (normChildRow r).ability_id with
      | none => simp [validateAbilities, h1, habl, keepChild, ih, List.filter_cons]
      | some a =>
        by_cases h2 : a ∈ valid_ab
        · simp [validateAbilities, h1, habl, h2, keepChild, ih, List.filter_cons]
        · simp [validateAbilities, h1, habl, h2, keepChild, ih, List.filter_cons]
    · simp [validateAbilities, h1, keepChild, ih, List.filter_cons]

theorem validateAbilities_snd (valid_ds valid_ab : List String) :
    ∀ data : List RawChildRow,
      (validateAbilities valid_ds valid_ab data).2
        = ((data.map normChildRow).filter
            (fun row => !(keepChild valid_ds valid_ab row))).length
  | [] => rfl
  | r :: data => by
    have ih := validateAbilities_snd valid_ds valid_ab data
    by_cases h1 : (normChildRow r).datasheet_id ∈ valid_ds
    · cases habl : (normChildRow r).ability_id with
      | none => simp [validateAbilities, h1, habl, keepChild, ih, List.filter_cons]
      | some a =>
        by_cases h2 : a ∈ valid_ab
        · simp [validateAbilities, h1, habl, h2, keepChild, ih, List.filter_cons]
        · simp [validateAbilities, h1, habl, h2, keepChild, ih, List.filter_cons]
    · simp [validateAbilities, h1, keepChild, ih, List.filter_cons]

theorem keepChild_iff (valid_ds valid_ab : List String) (row : ChildRow) :
    keepChild valid_ds valid_ab row = true ↔
      (row.datasheet_id ∈ valid_ds ∧
        ∀ a : String, row.ability_id = some a → a ∈ valid_ab) := by
  cases habl : row.ability_id with
  | none => simp [keepChild, habl]
  | some a => simp [keepChild, habl]

theorem mem_validateAbilities_owner (valid_ds valid_ab : List String)
    (data : List RawChildRow) {row : ChildRow}
    (h : row ∈ (validateAbilities valid_ds valid_ab data).1) :
    row.datasheet_id ∈ data.map RawChildRow.datasheet_id := by
  rw [validateAbilities_fst] at h
  rcases List.mem_filter.1 h with ⟨h1, _⟩
  rcases List.mem_map.1 h1 with ⟨raw, hraw, rfl⟩
  exact List.mem_map.2 ⟨raw, hraw, rfl⟩

/-- C3: the validation stage of `import_datasheets_abilities` keeps a
record exactly when every non-null foreign key it carries is in the
corresponding committed-key snapshot (the required owner key must be a
committed datasheet, a null optional `ability_id` — including one
normalized from the empty string — is accepted), and the number of
dropped records is returned as the skipped count. -/
theorem C3_referential_validator (valid_ds valid_ab : List String)
    (data : List RawChildRow) :
    (validateAbilities valid_ds valid_ab data).1
      = (data.map normChildRow).filter (keepChild valid_ds valid_ab) ∧
    (validateAbilities valid_ds valid_ab data).2
      = ((data.map normChildRow).filter
          (fun row => !(keepChild valid_ds valid_ab row))).length ∧
    (∀ row : ChildRow, keepChild valid_ds valid_ab row = true ↔
      (row.datasheet_id ∈ valid_ds ∧
        ∀ a : String, row.ability_id = some a → a ∈ valid_ab)) ∧
    (∀ r : RawChildRow, r.ability_id = "" → (normChildRow r).ability_id = none) ∧
    (validateAbilities valid_ds valid_ab data).2
      = data.length - (validateAbilities valid_ds valid_ab data).1.length := by
  refine ⟨validateAbilities_fst valid_ds valid_ab data,
    validateAbilities_snd valid_ds valid_ab data,
    keepChild_iff valid_ds valid_ab, ?_, ?_⟩
  · intro r h
    simp [normChildRow, h]
  · rw [validateAbilities_fst, validateAbilities_snd]
    have hsplit := List.length_eq_length_filter_add
      (l := data.map normChildRow) (keepChild valid_ds valid_ab)
    have hlen : (data.map normChildRow).length = data.length := List.length_map _ _
    omega

/-- Witness for C3: one row with an empty (null after normalization)
optional foreign key and a committed owner is kept; one row with an
uncommitted owner is dropped and counted. -/
theorem C3_referential_validator_witness :
    (validateAbilities ["D1"] ["A1"]
        [⟨"D1", "", "2", []⟩, ⟨"D2", "A1", "7", []⟩]).1
      = [⟨"D1", none, some 2, []⟩] ∧
    (validateAbilities ["D1"] ["A1"]
        [⟨"D1", "", "2", []⟩, ⟨"D2", "A1", "7", []⟩]).2 = 1 ∧
    (normChildRow ⟨"D1", "", "2", []⟩).ability_id = none := by
  have h := C3_referential_validator ["D1"] ["A1"]
    [⟨"D1", "", "2", []⟩, ⟨"D2", "A1", "7", []⟩]
  refine ⟨?_, ?_, h.2.2.2.1 ⟨"D1", "", "2", []⟩ rfl⟩
  · rw [h.1]
    decide
  · rw [h.2.1]
    decide

theorem import_datasheets_abilities_02_fst (stored : List ChildRow)
    (valid_ds valid_ab : List String) (data : List RawChildRow) :
    (import_datasheets_abilities_02 stored valid_ds valid_ab data).1
      = stored.filter (fun r => r.datasheet_id ∉ data.map RawChildRow.datasheet_id)
          ++ (validateAbilities valid_ds valid_ab data).1 := rfl

/-- C2: replace-by-owner-key in `import_datasheets_abilities`: every
owner key occurring in the validated batch ends up with exactly the
batch's rows for that key (its previously stored rows are all deleted),
and the stored rows of every owner key that does not occur in the
incoming batch are left unchanged. -/
theorem C2_replace_by_owner_key (stored : List ChildRow)
    (valid_ds valid_ab : List String) (data : List RawChildRow) (k : String) :
    (k ∈ (validateAbilities valid_ds valid_ab data).1.map ChildRow.datasheet_id →
      (import_datasheets_abilities_02 stored valid_ds valid_ab data).1.filter
          (fun r => r.datasheet_id = k)
        = (validateAbilities valid_ds valid_ab data).1.filter
            (fun r => r.datasheet_id = k)) ∧
    (k ∉ data.map RawChildRow.datasheet_id →
      (import_datasheets_abilities_02 stored valid_ds valid_ab data).1.filter
          (fun r => r.datasheet_id = k)
        = stored.filter (fun r => r.datasheet_id = k)) := by
  constructor
  · intro hk
    have hkraw : k ∈ data.map RawChildRow.datasheet_id := by
      rcases List.mem_map.1 hk with ⟨row, hrow, rfl⟩
      exact mem_validateAbilities_owner valid_ds valid_ab data hrow
    rw [import_datasheets_abilities_02_fst, List.filter_append]
    have h1 : (stored.filter
        (fun r => r.datasheet_id ∉ data.map RawChildRow.datasheet_id)).filter
          (fun r => r.datasheet_id = k) = [] := by
      rw [List.filter_eq_nil_iff]
      intro a ha
      rcases List.mem_filter.1 ha with ⟨_, hnot⟩
      simp only [decide_eq_true_eq] at hnot ⊢
      intro hak
      exact hnot (hak ▸ hkraw)
    rw [h1, List.nil_append]
  · intro hk
    rw [import_datasheets_abilities_02_fst, List.filter_append]
    have h2 : (validateAbilities valid_ds valid_ab data).1.filter
        (fun r => r.datasheet_id = k) = [] := by
      rw [List.filter_eq_nil_iff]
      intro a ha
      simp only [decide_eq_true_eq]
      intro hak
      exact hk (hak ▸ mem_validateAbilities_owner valid_ds valid_ab data ha)
    have h3 : (stored.filter
        (fun r => r.datasheet_id ∉ data.map RawChildRow.datasheet_id)).filter
          (fun r => r.datasheet_id = k) = stored.filter (fun r => r.datasheet_id = k) := by
      rw [List.filter_filter]
      apply List.filter_congr
      intro a _
      by_cases hak : a.datasheet_id = k
      · simp [hak, hk]
      · simp [hak]
    rw [h2, h3, List.append_nil]

/-- Witness for C2, the spec's replace-scoping scenario: owner `A` has
3 stored child rows and owner `B` has 2; a batch with a single valid
row for `A` and none for `B` leaves exactly that one row for `A` and
`B`'s two rows untouched. -/
theorem C2_replace_by_owner_key_witness :
    (import_datasheets_abilities_02
        [⟨"A", none, some 1, []⟩, ⟨"A", none, some 2, []⟩, ⟨"A", none, some 3, []⟩,
          ⟨"B", none, some 1, []⟩, ⟨"B", none, some 2, []⟩]
        ["A", "B"] [] [⟨"A", "", "9", []⟩]).1.filter
      (fun r => r.datasheet_id = "A") = [⟨"A", none, some 9, []⟩] ∧
    (import_datasheets_abilities_02
        [⟨"A", none, some 1, []⟩, ⟨"A", none, some 2, []⟩, ⟨"A", none, some 3, []⟩,
          ⟨"B", none, some 1, []⟩, ⟨"B", none, some 2, []⟩]
        ["A", "B"] [] [⟨"A", "", "9", []⟩]).1.filter
      (fun r => r.datasheet_id = "B")
      = [⟨"B", none, some 1, []⟩, ⟨"B", none, some 2, []⟩] := by
  have hA := (C2_replace_by_owner_key
    [⟨"A", none, some 1, []⟩, ⟨"A", none, some 2, []⟩, ⟨"A", none, some 3, []⟩,
      ⟨"B", none, some 1, []⟩, ⟨"B", none, some 2, []⟩]
    ["A", "B"] [] [⟨"A", "", "9", []⟩] "A").1 (by decide)
  have hB := (C2_replace_by_owner_key
    [⟨"A", none, some 1, []⟩, ⟨"A", none, some 2, []⟩, ⟨"A", none, some 3, []⟩,
      ⟨"B", none, some 1, []⟩, ⟨"B", none, some 2, []⟩]
    ["A", "B"] [] [⟨"A", "", "9", []⟩] "B").2 (by decide)
  exact ⟨hA.trans (by decide), hB.trans (by decide)⟩

/-! ## C5 and C6: orchestration, marker advance and failure handling -/

/-- C5 counterexample: in the Supabase variant, `Last_update.csv` is
the first file of `CSV_FILES` and its import takes effect immediately,
so a run that aborts on a later entity (here `Factions.csv`) still
advances the stored maximum marker — from 5 to 10 — contradicting the
claim that an aborted run leaves the marker unchanged. -/
theorem C5_marker_advance_counterexample :
    (run_02 (fun f => f == "Factions.csv")
        (fun f => if f = "Last_update.csv" then [10]
          else if f = "Factions.csv" then [1] else [])
        ⟨[5], []⟩).2 = false ∧
    storedMaxMarker (run_02 (fun f => f == "Factions.csv")
        (fun f => if f = "Last_update.csv" then [10]
          else if f = "Factions.csv" then [1] else [])
        ⟨[5], []⟩).1 = some 10 ∧
    storedMaxMarker ⟨[5], []⟩ = some 5 := by
  exact ⟨by decide, by decide, by decide⟩

/-- C5 amended: in the psycopg2 variant all writes share one
transaction committed only after every entity is processed, so a run
that aborts leaves the whole store — in particular the stored maximum
marker — unchanged; in the Supabase variant the marker table is
written first with immediate effect, so an aborted run can leave the
marker advanced (see the counterexample). -/
theorem C5_marker_after_all_writes (fails : String → Bool)
    (csvData : String → List Nat) (db : DB)
    (h : (run_03 fails csvData db).2 = false) :
    (run_03 fails csvData db).1 = db ∧
    storedMaxMarker (run_03 fails csvData db).1 = storedMaxMarker db := by
  have hrw : run_03 fails csvData db
      = (if (runFiles fails csvData db CSV_FILES).2 = true
          then ((runFiles fails csvData db CSV_FILES).1, true)
          else (db, false)) := rfl
  rw [hrw] at h ⊢
  cases h2 : (runFiles fails csvData db CSV_FILES).2 with
  | true => rw [if_pos h2] at h; simp at h
  | false =>
    rw [if_neg (by simp [h2])]
    exact ⟨rfl, rfl⟩

/-- Witness for C5: a concrete aborting run of the psycopg2 variant
(the `Factions.csv` write fails) leaves the store, and its marker,
untouched. -/
theorem C5_marker_after_all_writes_witness :
    (run_03 (fun f => f == "Factions.csv")
        (fun f => if f = "Last_update.csv" then [10]
          else if f = "Factions.csv" then [1] else [])
        ⟨[5], []⟩).1 = ⟨[5], []⟩ ∧
    storedMaxMarker (run_03 (fun f => f == "Factions.csv")
        (fun f => if f = "Last_update.csv" then [10]
          else if f = "Factions.csv" then [1] else [])
        ⟨[5], []⟩).1 = storedMaxMarker ⟨[5], []⟩ := by
  exact C5_marker_after_all_writes (fun f => f == "Factions.csv")
    (fun f => if f = "Last_update.csv" then [10]
      else if f = "Factions.csv" then [1] else [])
    ⟨[5], []⟩ (by decide)

/-- C6 counterexample: a single entity's write failure (a rejected
write on `Factions.csv`, not a connection loss) aborts the whole run of
the Supabase variant: the run reports failure and the remaining entity
`Source.csv`, whose data is non-empty, is never written — the
orchestrator does not record the failure and continue.  In the psycopg2
variant the same failure rolls the whole store back. -/
theorem C6_continue_on_failure_counterexample :
    (run_02 (fun f => f == "Factions.csv")
        (fun f => if f = "Factions.csv" then [1]
          else if f = "Source.csv" then [7] else [])
        ⟨[], []⟩).2 = false ∧
    dictFind? (run_02 (fun f => f == "Factions.csv")
        (fun f => if f = "Factions.csv" then [1]
          else if f = "Source.csv" then [7] else [])
        ⟨[], []⟩).1.tables "Source.csv" = none ∧
    run_03 (fun f => f == "Factions.csv")
        (fun f => if f = "Factions.csv" then [1]
          else if f = "Source.csv" then [7] else [])
        ⟨[], []⟩ = (⟨[], []⟩, false) := by
  exact ⟨by decide, by decide, by decide⟩

/-- C6 amended: the import loop has no per-entity failure handling:
the first entity whose (non-empty) import fails — whether the failure
is connection-fatal or a mere rejected write — stops the loop at once,
the store state is exactly what the earlier entities produced, no later
entity is processed and no failure list is kept. -/
theorem C6_abort_on_first_failure (fails : String → Bool)
    (csvData : String → List Nat) (f : String) (fs2 : List String) :
    ∀ (fs1 : List String) (db : DB), (∀ g ∈ fs1, fails g = false) →
      (csvData f).isEmpty = false → fails f = true →
      runFiles fails csvData db (fs1 ++ f :: fs2)
        = ((runFiles fails csvData db fs1).1, false)
  | [], db, _, hne, hf => by
    simp [runFiles, hne, hf]
  | g :: fs1, db, hok, hne, hf => by
    have hg : fails g = false := hok g (List.mem_cons_self g fs1)
    have ih := C6_abort_on_first_failure fails csvData f fs2 fs1
    by_cases hge : (csvData g).isEmpty
    · rw [List.cons_append, runFiles, if_pos hge]
      rw [ih db (fun x hx => hok x (List.mem_cons_of_mem g hx)) hne hf]
      rw [runFiles, if_pos hge]
    · rw [List.cons_append, runFiles, if_neg hge, if_neg (by rw [hg]; exact Bool.false_ne_true)]
      rw [ih _ (fun x hx => hok x (List.mem_cons_of_mem g hx)) hne hf]
      rw [runFiles, if_neg hge, if_neg (by rw [hg]; exact Bool.false_ne_true)]

/-- Witness for C6: with `Factions.csv` processed first and the
`Source.csv` write failing, the run stops right after `Factions.csv`;
the abort leaves exactly the factions write in place and the remaining
file is untouched. -/
theorem C6_abort_on_first_failure_witness :
    runFiles (fun f => f == "Source.csv")
        (fun f => if f = "Factions.csv" then [1]
          else if f = "Source.csv" then [7] else [9])
        ⟨[], []⟩ ["Factions.csv", "Source.csv", "Datasheets.csv"]
      = (⟨[], [("Factions.csv", [1])]⟩, false) := by
  have h := C6_abort_on_first_failure (fun f => f == "Source.csv")
    (fun f => if f = "Factions.csv" then [1]
      else if f = "Source.csv" then [7] else [9])
    "Source.csv" ["Datasheets.csv"] ["Factions.csv"] ⟨[], []⟩
    (by decide) (by decide) (by decide)
  exact h.trans (by decide)

/-! ## C10: CSV header cleaning -/

theorem not_of_head?_dropWhile {α : Type} {p : α → Bool} {l : List α} {c : α}
    (h : (l.dropWhile p).head? = some c) : p c = false := by
  have h2 := List.head?_dropWhile_not p l
  rw [h] at h2
  exact h2

theorem getLast?_dropWhile_of_ne_nil {α : Type} {p : α → Bool} :
    ∀ (l : List α), l.dropWhile p ≠ [] → (l.dropWhile p).getLast? = l.getLast?
  | [], h => absurd rfl h
  | a :: l, h => by
    rw [List.dropWhile_cons] at h ⊢
    by_cases hpa : p a
    · rw [if_pos hpa] at h ⊢
      have hl : l ≠ [] := by
        intro hc
        subst hc
        simp at h
      cases l with
      | nil => exact absurd rfl hl
      | cons b m =>
        rw [List.getLast?_cons_cons]
        exact getLast?_dropWhile_of_ne_nil (b :: m) h
    · rw [if_neg hpa]

theorem mem_pyStrip {s : String} {c : Char} (h : c ∈ (pyStrip s).data) :
    c ∈ s.data := by
  have h1 : c ∈ (s.data.dropWhile Char.isWhitespace).reverse.dropWhile Char.isWhitespace :=
    List.mem_reverse.1 h
  have h2 : c ∈ (s.data.dropWhile Char.isWhitespace).reverse :=
    (List.dropWhile_sublist _).subset h1
  exact (List.dropWhile_sublist _).subset (List.mem_reverse.1 h2)

theorem pyStrip_head? {s : String} {c : Char}
    (h : (pyStrip s).data.head? = some c) : c.isWhitespace = false := by
  rw [show (pyStrip s).data
      = ((s.data.dropWhile Char.isWhitespace).reverse.dropWhile Char.isWhitespace).reverse
      from rfl] at h
  rw [List.head?_reverse] at h
  have htne : (s.data.dropWhile Char.isWhitespace).reverse.dropWhile Char.isWhitespace ≠ [] := by
    intro hc
    rw [hc] at h
    simp at h
  rw [getLast?_dropWhile_of_ne_nil _ htne, List.getLast?_reverse] at h
  exact not_of_head?_dropWhile h

theorem pyStrip_getLast? {s : String} {c : Char}
    (h : (pyStrip s).data.getLast? = some c) : c.isWhitespace = false := by
  rw [show (pyStrip s).data
      = ((s.data.dropWhile Char.isWhitespace).reverse.dropWhile Char.isWhitespace).reverse
      from rfl] at h
  rw [List.getLast?_reverse] at h
  exact not_of_head?_dropWhile h

theorem mem_clean_row_fold :
    ∀ (row : List (String × String)) (acc kv : _),
      kv ∈ row.foldl
          (fun acc kv =>
            if cleanKey kv.1 = "" then acc else dictInsert acc (cleanKey kv.1) kv.2)
          acc →
      kv ∈ acc ∨ ∃ kv0 ∈ row, kv.1 = cleanKey kv0.1 ∧ cleanKey kv0.1 ≠ ""
  | [], acc, kv, h => Or.inl h
  | kv2 :: row, acc, kv, h => by
    rw [List.foldl_cons] at h
    rcases mem_clean_row_fold row _ kv h with h1 | ⟨kv0, hkv0, he, hne⟩
    · by_cases hck : cleanKey kv2.1 = ""
      · rw [if_pos hck] at h1
        exact Or.inl h1
      · rw [if_neg hck] at h1
        rcases mem_dictInsert h1 with h2 | h2
        · exact Or.inr ⟨kv2, List.mem_cons_self _ _, by rw [h2], hck⟩
        · exact Or.inl h2
    · exact Or.inr ⟨kv0, List.mem_cons_of_mem _ hkv0, he, hne⟩

theorem mem_clean_row {row : List (String × String)} {kv : String × String}
    (h : kv ∈ clean_row row) :
    ∃ kv0 ∈ row, kv.1 = cleanKey kv0.1 ∧ cleanKey kv0.1 ≠ "" := by
  rcases mem_clean_row_fold row [] kv h with h1 | h1
  · cases h1
  · exact h1

/-- C10: CSV parsing keeps the rows in input order (the output is the
per-row cleaning of the input, row by row), and in every produced row
every field key is non-empty, contains no UTF-8 BOM character, and
starts and ends with a non-whitespace character; entries whose cleaned
header is empty are dropped, so no empty key survives. -/
theorem C10_csv_header_cleaning (rows : List (List (String × String))) :
    (parse_csv_content rows).length = rows.length ∧
    (∀ (i : Nat) (h1 : i < (parse_csv_content rows).length) (h2 : i < rows.length),
      (parse_csv_content rows).get ⟨i, h1⟩ = clean_row (rows.get ⟨i, h2⟩)) ∧
    (∀ row ∈ parse_csv_content rows, ∀ kv ∈ row,
      kv.1 ≠ "" ∧
      (∀ c ∈ kv.1.data, c ≠ '\uFEFF') ∧
      (∀ c, kv.1.data.head? = some c → c.isWhitespace = false) ∧
      (∀ c, kv.1.data.getLast? = some c → c.isWhitespace = false)) := by
  refine ⟨List.length_map _ _, ?_, ?_⟩
  · intro i h1 h2
    simp [parse_csv_content]
  · intro row hrow kv hkv
    rcases List.mem_map.1 hrow with ⟨row0, _, rfl⟩
    rcases mem_clean_row hkv with ⟨kv0, _, hk, hne⟩
    refine ⟨by rw [hk]; exact hne, ?_, ?_, ?_⟩
    · intro c hc
      rw [hk] at hc
      have h3 : c ∈ (removeBOM kv0.1).data := mem_pyStrip hc
      have h4 := List.mem_filter.1 h3
      simpa using h4.2
    · intro c hc
      rw [hk] at hc
      exact pyStrip_head? hc
    · intro c hc
      rw [hk] at hc
      exact pyStrip_getLast? hc

/-- Witness for C10: a header row whose first column name carries a BOM
and padding, whose second is pure whitespace (dropped), and whose third
is already clean. -/
theorem C10_csv_header_cleaning_witness :
    (parse_csv_content [[("\uFEFF id ", "1"), (" ", "x"), ("name", "n")]]).length = 1 ∧
    ("id" ≠ "" ∧
      (∀ c ∈ "id".data, c ≠ '\uFEFF') ∧
      (∀ c, "id".data.head? = some c → c.isWhitespace = false) ∧
      (∀ c, "id".data.getLast? = some c → c.isWhitespace = false)) := by
  have h := C10_csv_header_cleaning [[("\uFEFF id ", "1"), (" ", "x"), ("name", "n")]]
  exact ⟨h.1, h.2.2 [("id", "1"), ("name", "n")] (by decide) ("id", "1") (by decide)⟩
